import Mathlib

/-!
# Verification of the LADS workshop sample server

Shallow embedding of the state-machine, program-run and event-notifier logic
of the LADS OPC UA workshop server (`src/lads-server.ts`, `src/lads-utils.ts`).

Modelling conventions:
* OPC UA state machines expose their current state as a nullable string
  (`getCurrentState(): string | null`); we model this as `Option String`.
* JavaScript `String.prototype.includes` is modelled by `jsIncludes`
  (substring containment), and JavaScript truthiness of a nullable string
  (`null` and `""` are falsy) by `jsTruthy`.
* Timestamps (`new Date()`) are modelled by a natural-number clock that
  advances when scheduled timers (`sleepMilliSeconds(..).then(..)` and the
  `await sleepMilliSeconds(delta)` points of the run loop) fire.
* Calls into the node-opcua layer that only emit events (`raiseEvent`) or
  touch simulated sensor hardware are external I/O and are not part of the
  modelled state.
-/

/-- `infixAt needle hay` is true iff `needle` occurs contiguously in `hay`. -/
def infixAt (needle : List Char) : List Char → Bool
  | [] => needle.isEmpty
  | c :: rest => needle.isPrefixOf (c :: rest) || infixAt needle rest

/-- JavaScript `s.includes(sub)`. -/
def jsIncludes (s sub : String) : Bool := infixAt sub.toList s.toList

/-- JavaScript truthiness of a `string | null` value: `null` and `""` are falsy. -/
def jsTruthy : Option String → Bool
  | none => false
  | some s => !s.isEmpty

/-- `state2str` from `lads-utils.ts`: `value ? value : ''`. -/
def state2str : Option String → String
  | none => ""
  | some s => s

/-- The functional state machine states (`LADSFunctionalState` enum in
`lads-interfaces.ts`). -/
inductive FunctionalState where
  | Clearing | Running | Stopping | Stopped | Aborting | Aborted
  deriving DecidableEq, Repr

/-- The string value of a `LADSFunctionalState` enum member. -/
def FunctionalState.name : FunctionalState → String
  | .Clearing => "Clearing"
  | .Running => "Running"
  | .Stopping => "Stopping"
  | .Stopped => "Stopped"
  | .Aborting => "Aborting"
  | .Aborted => "Aborted"

/-- The device state machine states (`LADSDeviceState` enum). -/
inductive DeviceState where
  | Initialization | Operate | Sleep | Shutdown
  deriving DecidableEq, Repr

/-- The string value of a `LADSDeviceState` enum member. -/
def DeviceState.name : DeviceState → String
  | .Initialization => "Initialization"
  | .Operate => "Operate"
  | .Sleep => "Sleep"
  | .Shutdown => "Shutdown"

/-- The cover state machine states (`LADSCoverState` enum). -/
inductive CoverState where
  | Opened | Closed | Locked
  deriving DecidableEq, Repr

/-- The string value of a `LADSCoverState` enum member. -/
def CoverState.name : CoverState → String
  | .Opened => "Opened"
  | .Closed => "Closed"
  | .Locked => "Locked"

/-- The machinery item state machine states (`MachineryItemState` enum). -/
inductive MachineryItemState where
  | NotAvailable | Executing | NotExecuting | OutOfService
  deriving DecidableEq, Repr

/-- The string value of a `MachineryItemState` enum member. -/
def MachineryItemState.name : MachineryItemState → String
  | .NotAvailable => "NotAvailable"
  | .Executing => "Executing"
  | .NotExecuting => "NotExecuting"
  | .OutOfService => "OutOfService"

/-- OPC UA status codes that appear in the modelled code paths. -/
inductive StatusCode where
  | Good | BadInvalidState | BadInvalidArgument
  deriving DecidableEq, Repr

/-- A method-call input/output argument (`Variant`): the modelled code uses
string-valued variants and arrays of key/value pairs (the supported-property
context arguments). -/
inductive Variant where
  | vstr (s : String)
  | varr (items : List (String × String))
  deriving DecidableEq, Repr

/-- The `value` field of a string variant (empty for arrays). -/
def Variant.strValue : Variant → String
  | .vstr s => s
  | .varr _ => ""

/-- `CallMethodResultOptions`: a status code and optional output arguments. -/
structure MethodResult where
  statusCode : StatusCode
  outputArguments : List Variant
  deriving DecidableEq, Repr

/-! ## Step 10: the cover state machine (`lads-server.ts`, `transite`)

```ts
async function transite(this, fromStateName, toStateName, eventSource, ...) {
    const state = this.getCurrentState()
    if (state == null || state?.includes(fromStateName)) {
        this.setState(toStateName)
        ... raiseEvent ...
        return { statusCode: StatusCodes.Good }
    } else {
        return { statusCode: StatusCodes.BadInvalidState }
    }
}
```
The event raising goes to the external OPC UA layer and carries no modelled
state. -/

/-- `transite` bound to a cover state machine: returns the machine's new
current state together with the call result. -/
def transite (fromStateName toStateName : String) (state : Option String) :
    Option String × MethodResult :=
  if state = none || jsIncludes (state.getD "") fromStateName then
    (some toStateName, ⟨.Good, []⟩)
  else
    (state, ⟨.BadInvalidState, []⟩)

/-- The four cover methods bound in step 10 (`coverState.open/close/lock/unlock`). -/
inductive CoverMethod where
  | covOpen | covClose | covLock | covUnlock
  deriving DecidableEq, Repr

/-- The `fromStateName` each cover method was bound with. -/
def CoverMethod.source : CoverMethod → CoverState
  | .covOpen => .Closed
  | .covClose => .Opened
  | .covLock => .Closed
  | .covUnlock => .Locked

/-- The `toStateName` each cover method was bound with. -/
def CoverMethod.target : CoverMethod → CoverState
  | .covOpen => .Opened
  | .covClose => .Closed
  | .covLock => .Locked
  | .covUnlock => .Closed

/-- Invoking a cover method on the cover state machine. -/
def coverCall (m : CoverMethod) (state : Option String) :
    Option String × MethodResult :=
  transite m.source.name m.target.name state

/-- C8: for the cover state machine, exactly `Closed→Opened` (open),
`Opened→Closed` (close), `Closed→Locked` (lock) and `Locked→Closed` (unlock)
succeed; every other source/target request fails with `BadInvalidState` and
leaves the cover state unchanged. -/
theorem cover_transitions_exact (s : CoverState) (m : CoverMethod) :
    coverCall m (some s.name) =
      if s = m.source then (some m.target.name, ⟨.Good, []⟩)
      else (some s.name, ⟨.BadInvalidState, []⟩) := by
  cases s <;> cases m <;> decide

/-- C10: a cover transition method invoked while the state machine's current
state is still `null` succeeds and sets the target state, whatever the
required source state is; the `BadInvalidState` branch is reached exactly when
a non-null current state does not contain the required source state's name. -/
theorem cover_null_state_always_succeeds (m : CoverMethod) (st : Option String) :
    coverCall m none = (some m.target.name, ⟨.Good, []⟩) ∧
    ((coverCall m st).2.statusCode = .BadInvalidState ↔
      ∃ s, st = some s ∧ jsIncludes s m.source.name = false) := by
  constructor
  · cases m <;> rfl
  · cases st with
    | none =>
      simp only [coverCall, transite]
      simp
    | some s =>
      simp only [coverCall, transite]
      by_cases h : jsIncludes s m.source.name = true
      · simp [h]
      · simp only [Bool.not_eq_true] at h
        simp [h]

/-! ## Step 9: running programs and generating results (`lads-server.ts`)

The step-9 subsystem owns the functional unit's run-state machine, the
temperature controller's state machine, the `runId` counter, the result set
and the active-program snapshot.  `runProgram` is an async function: it runs
synchronously up to each `await sleepMilliSeconds(delta)`, so we model it as
a sequence of continuations woken by a timer scheduler.  `sleepMilliSeconds(
1000).then(...)` inside `stopOrAbortProgram` is a scheduled state assignment.
Timers with equal deadlines fire in registration order (node.js timer
semantics), which the scheduler below reproduces. -/

/-- The program-run constants from `runProgram`. -/
def runTime : Nat := 30000

/-- Duration of the simulated finish step. -/
def finishTime : Nat := 2000

/-- The tick increment of the run loop. -/
def delta : Nat := 500

/-- The dwell used by `stopOrAbortProgram` and the health-triggered abort
 (`sleepMilliSeconds(1000)`). -/
def dwellTime : Nat := 1000

/-- A dynamically created `Result` object (`ResultType.instantiate` plus the
fields set by `runProgram`).  Timestamps are clock values; `variableSet` lists
the browse names added to the result's `VariableSet`. -/
structure ResultRec where
  browseName : String
  properties : Option Variant := none
  supervisoryJobId : Option Variant := none
  supervisoryTaskId : Option Variant := none
  samples : Option Variant := none
  started : Option Nat := none
  stopped : Option Nat := none
  variableSet : List String := []
  deriving DecidableEq, Repr

/-- The `activeProgram` snapshot of the functional unit's program manager. -/
structure ActiveProgram where
  currentProgramTemplate : Option String := none
  currentRuntime : Option Nat := none
  currentStepName : Option String := none
  currentStepNumber : Option Nat := none
  currentStepRuntime : Option Nat := none
  estimatedRuntime : Option Nat := none
  estimatedStepRuntime : Option Nat := none
  estimatedStepNumbers : Option Nat := none
  deviceProgramRunId : Option String := none
  deriving DecidableEq, Repr

/-- Continuation points of `runProgram`, one per `await sleepMilliSeconds
(delta)`: `measure t` resumes after the sleep of the measure-loop iteration
with counter `t`; `finishing t` resumes after the sleep of the finish-loop
iteration with counter `t`. -/
inductive RunPhase where
  | measure (t : Nat)
  | finishing (t : Nat)
  deriving DecidableEq, Repr

/-- A scheduled timer callback: either a `runProgram` continuation for the
run identified by `rid`, or the deferred `setState(finalState)` of
`stopOrAbortProgram`. -/
inductive PendingAction where
  | wake (rid : String) (phase : RunPhase)
  | setUnitState (s : String)
  deriving DecidableEq, Repr

/-- The state of the step-9/step-7 subsystem of the server. -/
structure Sys where
  /-- model clock in milliseconds -/
  time : Nat := 0
  /-- current state of `functionalUnitStateMachine` -/
  unitState : Option String := none
  /-- current state of `temperatureControllerStateMachine` -/
  tcState : Option String := none
  /-- the `runId` counter -/
  runId : Nat := 0
  /-- the result set, in creation order -/
  results : List ResultRec := []
  /-- the active-program snapshot -/
  activeProgram : ActiveProgram := {}
  /-- browse names of the templates in the program template set -/
  programTemplates : List String := []
  /-- supported-property key variables and their current values -/
  supportedProps : List (String × String) := []
  /-- `nodeVersion` of the result set (the code writes the start time) -/
  resultSetNodeVersion : Option String := none
  /-- scheduled timers (fire time, callback), in registration order -/
  pending : List (Nat × PendingAction) := []
  deriving DecidableEq, Repr

/-- The supported-properties scan of `runProgram`: for each key/value item of
an array-typed `properties` argument, the matching supported-property key
variable is set to the supplied value (missing keys are skipped). -/
def scanSupportedProperties (supported : List (String × String)) :
    Option Variant → List (String × String)
  | some (.varr items) =>
      items.foldl
        (fun acc kv => acc.map fun p => if p.1 = kv.1 then (p.1, kv.2) else p)
        supported
  | _ => supported

/-- Update the result record with the given browse name. -/
def updateResult (rid : String) (f : ResultRec → ResultRec)
    (results : List ResultRec) : List ResultRec :=
  results.map fun r => if r.browseName = rid then f r else r

/-- The synchronous prefix of `runProgram(deviceProgramRunId, inputArguments)`:
everything up to (and including) the first `await sleepMilliSeconds(delta)` of
the measure loop — result creation, template lookup, supported-property scan,
context copying, active-program initialization, setting the unit and the
temperature controller to `Running`, and the `t = 0` progress update. -/
def runProgramStart (deviceProgramRunId : String) (args : List Variant)
    (s : Sys) : Sys :=
  let startedTimestamp := s.time
  -- template lookup: set currentProgramTemplate only if the template exists
  let programTemplateId := (args.getD 0 (.vstr "")).strValue
  let ap0 := s.activeProgram
  let ap1 := if s.programTemplates.contains programTemplateId then
      { ap0 with currentProgramTemplate := some programTemplateId } else ap0
  -- scan supported properties (only for an array-typed argument 1)
  let supported := scanSupportedProperties s.supportedProps (args.get? 1)
  -- the freshly instantiated result with the context information
  let result : ResultRec :=
    { browseName := deviceProgramRunId
      properties := args.get? 1
      supervisoryJobId := args.get? 2
      supervisoryTaskId := args.get? 3
      samples := args.get? 4
      started := some startedTimestamp }
  -- initialize active-program runtime properties, then the t = 0 iteration
  let ap2 := { ap1 with
      currentRuntime := some 0
      currentStepName := some "Measure"
      currentStepNumber := some 1
      currentStepRuntime := some 0
      estimatedRuntime := some (runTime + finishTime)
      estimatedStepRuntime := some runTime
      estimatedStepNumbers := some 2
      deviceProgramRunId := some deviceProgramRunId }
  { s with
      results := s.results ++ [result]
      resultSetNodeVersion := some (toString startedTimestamp)
      activeProgram := ap2
      supportedProps := supported
      unitState := some FunctionalState.Running.name
      tcState := some FunctionalState.Running.name
      pending := s.pending ++
        [(s.time + delta, .wake deviceProgramRunId (.measure 0))] }

/-- The tail of `runProgram` after the measure loop: stop the temperature
controller, set the result's `stopped` timestamp, attach the luminescence
readings to the result's variable set, initialize the finish step and run its
`t = 0` iteration up to the first `await`. -/
def runProgramFinalizeStart (rid : String) (s : Sys) : Sys :=
  let ap := s.activeProgram
  { s with
      tcState := some FunctionalState.Stopped.name
      results := updateResult rid
        (fun r => { r with
            stopped := some s.time
            variableSet := r.variableSet ++ ["Luminescence"] }) s.results
      activeProgram := { ap with
          currentStepName := some "Finalizing"
          currentStepNumber := some 2
          estimatedStepRuntime := some finishTime
          currentRuntime := some (0 + runTime)
          currentStepRuntime := some 0 }
      pending := s.pending ++ [(s.time + delta, .wake rid (.finishing 0))] }

/-- Resuming `runProgram` after the sleep of measure-loop iteration `t`: the
loop re-reads the unit's current state and breaks if it is non-null and no
longer contains `Running`; otherwise `t` is advanced by `delta` and, while
`t <= runTime` holds, the progress fields are updated and the next sleep is
scheduled.  Leaving the loop (by break or by exhausting the counter) runs the
finalization prefix. -/
def wakeMeasure (rid : String) (t : Nat) (s : Sys) : Sys :=
  let currentState := s.unitState
  let broke := jsTruthy currentState &&
    !(jsIncludes (state2str currentState) FunctionalState.Running.name)
  if broke then runProgramFinalizeStart rid s
  else
    let tNext := t + delta
    if tNext ≤ runTime then
      let ap := s.activeProgram
      { s with
          activeProgram := { ap with
              currentRuntime := some tNext
              currentStepRuntime := some tNext }
          pending := s.pending ++ [(s.time + delta, .wake rid (.measure tNext))] }
    else runProgramFinalizeStart rid s

/-- Resuming `runProgram` after the sleep of finish-loop iteration `t`: while
`t <= finishTime` holds the progress fields are updated and the next sleep is
scheduled; when the loop ends, the functional unit state machine is set to
`Stopped` (the last statement of `runProgram`). -/
def wakeFinishing (rid : String) (t : Nat) (s : Sys) : Sys :=
  let tNext := t + delta
  if tNext ≤ finishTime then
    let ap := s.activeProgram
    { s with
        activeProgram := { ap with
            currentRuntime := some (tNext + runTime)
            currentStepRuntime := some tNext }
        pending := s.pending ++ [(s.time + delta, .wake rid (.finishing tNext))] }
  else
    { s with unitState := some FunctionalState.Stopped.name }

/-- The `startProgram` guard:
`currentState && (currentState.includes(Stopped) || currentState.includes(Aborted))`. -/
def startGuardOk (currentState : Option String) : Bool :=
  jsTruthy currentState &&
    (jsIncludes (state2str currentState) FunctionalState.Stopped.name ||
     jsIncludes (state2str currentState) FunctionalState.Aborted.name)

/-- The `stopOrAbortProgram` guard:
`currentState && currentState.includes(Running)`. -/
def runningGuardOk (currentState : Option String) : Bool :=
  jsTruthy currentState &&
    jsIncludes (state2str currentState) FunctionalState.Running.name

/-- `startProgram` (`lads-server.ts:468`): guard on the current state, the
(vacuous) input-argument validation, allocation of `Run-${++runId}`, the
fire-and-forget `runProgram(...)` call, and the immediate return of the
run id. -/
def startProgram (args : List Variant) (s : Sys) : Sys × MethodResult :=
  if !startGuardOk s.unitState then
    (s, ⟨.BadInvalidState, []⟩)
  else
    -- the validation loop sets `validationFailed = false` for every argument,
    -- so the `BadInvalidArgument` return is unreachable
    let runId1 := s.runId + 1
    let deviceProgramRunId := "Run-" ++ toString runId1
    let s1 := runProgramStart deviceProgramRunId args { s with runId := runId1 }
    (s1, ⟨.Good, [.vstr deviceProgramRunId]⟩)

/-- `stopOrAbortProgram` (`lads-server.ts:503`): guard on `Running`, set the
transitive state, schedule the final state after 1000 ms. -/
def stopOrAbortProgram (transitiveState finalState : String) (s : Sys) :
    Sys × MethodResult :=
  if !runningGuardOk s.unitState then
    (s, ⟨.BadInvalidState, []⟩)
  else
    ({ s with
        unitState := some transitiveState
        pending := s.pending ++ [(s.time + dwellTime, .setUnitState finalState)] },
     ⟨.Good, []⟩)

/-- `stopProgram`. -/
def stopProgram (s : Sys) : Sys × MethodResult :=
  stopOrAbortProgram FunctionalState.Stopping.name FunctionalState.Stopped.name s

/-- `abortProgram`. -/
def abortProgram (s : Sys) : Sys × MethodResult :=
  stopOrAbortProgram FunctionalState.Aborting.name FunctionalState.Aborted.name s

/-- Run a fired timer callback. -/
def applyAction (act : PendingAction) (s : Sys) : Sys :=
  match act with
  | .setUnitState st => { s with unitState := some st }
  | .wake rid (.measure t) => wakeMeasure rid t s
  | .wake rid (.finishing t) => wakeFinishing rid t s

/-- Index of the due timer: the first pending entry with the minimal fire
time (node.js fires equal deadlines in registration order). -/
def earliestIdx (l : List (Nat × PendingAction)) : Option Nat :=
  match l with
  | [] => none
  | e :: rest =>
      some (l.findIdx fun p => p.1 == rest.foldl (fun m q => Nat.min m q.1) e.1)

/-- One scheduler step: fire the due timer (advancing the clock to its
deadline); a quiescent system is left unchanged. -/
def step (s : Sys) : Sys :=
  match earliestIdx s.pending with
  | none => s
  | some i =>
      match s.pending.get? i with
      | none => s
      | some (tm, act) =>
          applyAction act { s with time := tm, pending := s.pending.eraseIdx i }

/-- `run n s`: `n` scheduler steps. -/
def run : Nat → Sys → Sys
  | 0, s => s
  | n + 1, s => run n (step s)

/-! ## Program-run claims -/

/-- `startGuardOk` on an actual functional-state name. -/
lemma startGuardOk_name (st : FunctionalState) :
    startGuardOk (some st.name) = (st == .Stopped || st == .Aborted) := by
  cases st <;> decide

/-- `runningGuardOk` on an actual functional-state name. -/
lemma runningGuardOk_name (st : FunctionalState) :
    runningGuardOk (some st.name) = (st == .Running) := by
  cases st <;> decide

/-- C1: `startProgram` on a unit whose run-state is neither `Stopped` nor
`Aborted` returns `BadInvalidState`, creates no result and leaves the whole
state unchanged; on a unit in `Stopped` or `Aborted` it succeeds, allocates
the fresh run id `Run-${runId+1}`, creates exactly one new (still unfinished)
result record and immediately returns the run id while the run itself only
proceeds through the scheduled continuation (fire and forget). -/
theorem startProgram_guard (st : FunctionalState) (args : List Variant) (s : Sys)
    (h : s.unitState = some st.name) :
    (st ≠ .Stopped ∧ st ≠ .Aborted →
      startProgram args s = (s, ⟨.BadInvalidState, []⟩)) ∧
    (st = .Stopped ∨ st = .Aborted →
      (startProgram args s).2.statusCode = .Good ∧
      (startProgram args s).2.outputArguments =
        [.vstr ("Run-" ++ toString (s.runId + 1))] ∧
      (startProgram args s).1.runId = s.runId + 1 ∧
      (startProgram args s).1.results = s.results ++
        [{ browseName := "Run-" ++ toString (s.runId + 1)
           properties := args.get? 1
           supervisoryJobId := args.get? 2
           supervisoryTaskId := args.get? 3
           samples := args.get? 4
           started := some s.time
           stopped := none
           variableSet := [] }] ∧
      (startProgram args s).1.pending = s.pending ++
        [(s.time + delta,
          .wake ("Run-" ++ toString (s.runId + 1)) (.measure 0))]) := by
  constructor
  · rintro ⟨h1, h2⟩
    have hg : startGuardOk s.unitState = false := by
      rw [h, startGuardOk_name]
      cases st <;> simp_all
    simp [startProgram, hg]
  · rintro (rfl | rfl) <;>
    · have hg : startGuardOk s.unitState = true := by
        rw [h, startGuardOk_name]; decide
      simp [startProgram, hg, runProgramStart]

/-- Witness for `startProgram_guard` at the states `Running` and `Stopped`. -/
theorem startProgram_guard_witness :
    startProgram [] { unitState := some "Running" } =
      ({ unitState := some "Running" }, ⟨.BadInvalidState, []⟩) ∧
    (startProgram [] { unitState := some "Stopped" }).2.statusCode = .Good := by
  refine ⟨?_, ?_⟩
  · exact (startProgram_guard .Running [] _ rfl).1 (by decide)
  · exact ((startProgram_guard .Stopped [] _ rfl).2 (Or.inl rfl)).1

/-- C2: `stopProgram` and `abortProgram` succeed exactly when the unit's
run-state is `Running` (otherwise `BadInvalidState` with the state unchanged);
on success the unit is set to the dwell state (`Stopping` / `Aborting`) and a
timer is scheduled that, after the 1000 ms dwell, sets the final state
(`Stopped` / `Aborted`). -/
theorem stopAbort_guard (st : FunctionalState) (s : Sys)
    (h : s.unitState = some st.name) :
    (st ≠ .Running →
      stopProgram s = (s, ⟨.BadInvalidState, []⟩) ∧
      abortProgram s = (s, ⟨.BadInvalidState, []⟩)) ∧
    (st = .Running →
      (stopProgram s).2.statusCode = .Good ∧
      (stopProgram s).1 = { s with
          unitState := some FunctionalState.Stopping.name
          pending := s.pending ++
            [(s.time + dwellTime, .setUnitState FunctionalState.Stopped.name)] } ∧
      (applyAction (.setUnitState FunctionalState.Stopped.name)
          (stopProgram s).1).unitState = some FunctionalState.Stopped.name ∧
      (abortProgram s).2.statusCode = .Good ∧
      (abortProgram s).1 = { s with
          unitState := some FunctionalState.Aborting.name
          pending := s.pending ++
            [(s.time + dwellTime, .setUnitState FunctionalState.Aborted.name)] } ∧
      (applyAction (.setUnitState FunctionalState.Aborted.name)
          (abortProgram s).1).unitState = some FunctionalState.Aborted.name) := by
  constructor
  · intro h1
    have hg : runningGuardOk s.unitState = false := by
      rw [h, runningGuardOk_name]
      cases st <;> simp_all
    simp [stopProgram, abortProgram, stopOrAbortProgram, hg]
  · rintro rfl
    have hg : runningGuardOk s.unitState = true := by
      rw [h, runningGuardOk_name]; decide
    simp [stopProgram, abortProgram, stopOrAbortProgram, hg, applyAction]

/-- Witness for `stopAbort_guard` at the states `Stopped` and `Running`. -/
theorem stopAbort_guard_witness :
    stopProgram { unitState := some "Stopped" } =
      ({ unitState := some "Stopped" }, ⟨.BadInvalidState, []⟩) ∧
    (abortProgram { unitState := some "Running" }).2.statusCode = .Good := by
  refine ⟨?_, ?_⟩
  · exact ((stopAbort_guard .Stopped _ rfl).1 (by decide)).1
  · exact (((stopAbort_guard .Running _ rfl).2 rfl).2.2.2.1)

/-- The §8 scenario's initial state: the unit starts in `Stopped`, the
template set contains `T1`, the `runId` counter is fresh. -/
def scenarioInit : Sys :=
  { unitState := some FunctionalState.Stopped.name, programTemplates := ["T1"] }

/-- `startProgram(unit, "T1", {})` on the scenario state. -/
def scenarioStart : Sys × MethodResult :=
  startProgram [.vstr "T1", .varr []] scenarioInit

set_option maxRecDepth 10000 in
/-- C9: from `Stopped`, the first `startProgram` call returns `Run-1` and sets
the unit `Running`; with no external stop the run loop (61 measure ticks and
5 finish ticks, 66 scheduler steps) drains the timer queue, returns the unit
to `Stopped`, and the result record for `Run-1` carries `started = 0` and the
strictly later `stopped = 30500`. -/
theorem program_run_scenario :
    scenarioStart.2 = ⟨.Good, [.vstr "Run-1"]⟩ ∧
    scenarioStart.1.unitState = some FunctionalState.Running.name ∧
    (run 66 scenarioStart.1).pending = [] ∧
    (run 66 scenarioStart.1).unitState = some FunctionalState.Stopped.name ∧
    (run 66 scenarioStart.1).results =
      [{ browseName := "Run-1"
         properties := some (.varr [])
         started := some 0
         stopped := some 30500
         variableSet := ["Luminescence"] }] ∧
    (0 : Nat) < 30500 := by decide

/-- `abortProgram` issued right after the successful `startProgram` of the
scenario (the run loop's first tick is still pending). -/
def scenarioAbort : Sys × MethodResult := abortProgram scenarioStart.1

set_option maxRecDepth 10000 in
/-- C3 counterexample: aborting mid-run does drive the unit through
`Aborting` to `Aborted` within the 1000 ms grace, and the measure loop does
exit on its next tick — but `runProgram` then still executes the complete
finalization path, whose last statement sets the unit back to `Stopped`: at
quiescence (empty timer queue, 7 scheduler steps) the final state is
`Stopped`, not `Aborted`, contradicting the claim that the unit remains
`Aborted`. -/
theorem abort_midrun_counterexample :
    scenarioAbort.2.statusCode = .Good ∧
    scenarioAbort.1.unitState = some FunctionalState.Aborting.name ∧
    (run 2 scenarioAbort.1).unitState = some FunctionalState.Aborted.name ∧
    (run 2 scenarioAbort.1).time = dwellTime ∧
    (run 7 scenarioAbort.1).pending = [] ∧
    (run 7 scenarioAbort.1).unitState = some FunctionalState.Stopped.name ∧
    some FunctionalState.Stopped.name ≠ some FunctionalState.Aborted.name := by
  decide

set_option maxRecDepth 10000 in
/-- C3 (amended): aborting mid-run transitions the unit
`Running → Aborting → Aborted` within the abort grace, and the run loop
observes the non-`Running` state on its next tick (500 ms) and leaves the
measurement loop early (the result's `stopped` stamp is 500, not 30500) —
but the finalization path still runs to completion (readings attached,
finish phase executed) and its final statement returns the unit to
`Stopped`. -/
theorem abort_midrun_behavior :
    scenarioStart.1.unitState = some FunctionalState.Running.name ∧
    scenarioAbort.1.unitState = some FunctionalState.Aborting.name ∧
    (run 2 scenarioAbort.1).unitState = some FunctionalState.Aborted.name ∧
    (run 2 scenarioAbort.1).time ≤ dwellTime ∧
    (run 1 scenarioAbort.1).results =
      [{ browseName := "Run-1"
         properties := some (.varr [])
         started := some 0
         stopped := some 500
         variableSet := ["Luminescence"] }] ∧
    (run 7 scenarioAbort.1).pending = [] ∧
    (run 7 scenarioAbort.1).unitState = some FunctionalState.Stopped.name := by
  decide

/-! ## `LADSDeviceHelper` reactions (`lads-utils.ts:403`)

The helper's reaction handlers read and write the machinery-item state
machine (optional on the device) and the functional-unit state machines.
`raiseEvent` only emits to the external OPC UA layer and is not modelled.
`onDeviceHealthChanged` schedules, for every unit found `Running`, a
1000 ms timer that sets that same machine to `Aborted`; the model returns
the helper state both immediately after the handler and after those grace
timers have fired (with no intervening changes). -/

/-- The slice of `LADSDeviceHelper` touched by the modelled reactions:
`machineryItemState` is `none` when the device has no machinery-item state
machine, otherwise it carries that machine's current state; the list holds
the current state of each functional-unit state machine. -/
structure DeviceHelper where
  machineryItemState : Option (Option String) := none
  functionalUnitStateMachines : List (Option String) := []
  deriving DecidableEq, Repr

/-- `this.machineryItemState?.setState(st)`. -/
def setMachineryItemState (h : DeviceHelper) (st : String) : DeviceHelper :=
  match h.machineryItemState with
  | none => h
  | some _ => { h with machineryItemState := some (some st) }

/-- The `reduce` of `adjustMachineryItemState`: the number of states that
contain `Running`. -/
def countRunning (states : List String) : Nat :=
  states.foldl
    (fun count state =>
      if jsIncludes state FunctionalState.Running.name then count + 1 else count)
    0

/-- `adjustMachineryItemState` (`lads-utils.ts:550`): set the machinery item
state to `Executing` iff at least one functional unit's state contains
`Running`, else `NotExecuting`; returns the running count. -/
def adjustMachineryItemState (h : DeviceHelper) : DeviceHelper × Nat :=
  let functionalUnitStates := h.functionalUnitStateMachines.map state2str
  let functionalUnitsRunning := countRunning functionalUnitStates
  (setMachineryItemState h
    (if functionalUnitsRunning > 0 then MachineryItemState.Executing.name
     else MachineryItemState.NotExecuting.name),
   functionalUnitsRunning)

/-- `onDeviceStateChanged` (`lads-utils.ts:514`): on a falsy state text do
nothing; otherwise, when the new device state does not contain `Operate`,
re-run `adjustMachineryItemState`. -/
def onDeviceStateChanged (state : Option String) (h : DeviceHelper) : DeviceHelper :=
  if !jsTruthy state then h
  else if !jsIncludes (state.getD "") DeviceState.Operate.name then
    (adjustMachineryItemState h).1
  else h

/-- `EnumDeviceHealth` of OPC UA Device Integration. -/
inductive DeviceHealth where
  | NORMAL | FAILURE | CHECK_FUNCTION | OFF_SPEC | MAINTENANCE_REQUIRED
  deriving DecidableEq, Repr

/-- `onDeviceHealthChanged` (`lads-utils.ts:523`): on `FAILURE`, force the
machinery item state to `OutOfService` and set every unit whose state
contains `Running` to `Aborting`, scheduling `Aborted` after the 1000 ms
grace.  First component: state right after the handler; second component:
state after all scheduled grace timers have fired. -/
def onDeviceHealthChanged (value : DeviceHealth) (h : DeviceHelper) :
    DeviceHelper × DeviceHelper :=
  if value = .FAILURE then
    let h1 := setMachineryItemState h MachineryItemState.OutOfService.name
    let immediate := { h1 with
      functionalUnitStateMachines := h.functionalUnitStateMachines.map fun st =>
        if jsIncludes (state2str st) FunctionalState.Running.name
        then some FunctionalState.Aborting.name else st }
    let afterGrace := { immediate with
      functionalUnitStateMachines := h.functionalUnitStateMachines.map fun st =>
        if jsIncludes (state2str st) FunctionalState.Running.name
        then some FunctionalState.Aborted.name else st }
    (immediate, afterGrace)
  else (h, h)

/-- `onFunctionalUnitStateChanged` (`lads-utils.ts:557`): on a falsy state
text do nothing; otherwise schedule the debounced (50 ms)
`adjustMachineryItemState`.  The boolean records whether the debounced
recomputation was scheduled. -/
def onFunctionalUnitStateChanged (state : Option String) (h : DeviceHelper) :
    DeviceHelper × Bool :=
  if !jsTruthy state then (h, false) else (h, true)

/-- The counting fold shifted by its accumulator. -/
lemma countRunning_foldl (l : List String) (n : Nat) :
    l.foldl
      (fun count state =>
        if jsIncludes state FunctionalState.Running.name then count + 1 else count)
      n =
    n + l.foldl
      (fun count state =>
        if jsIncludes state FunctionalState.Running.name then count + 1 else count)
      0 := by
  induction l generalizing n with
  | nil => simp
  | cons st l ih =>
      simp only [List.foldl_cons]
      by_cases hs : jsIncludes st FunctionalState.Running.name
      · rw [if_pos hs, if_pos hs, ih (n + 1), ih (0 + 1)]
        omega
      · rw [if_neg hs, if_neg hs]
        exact ih n

/-- The running count is positive iff some state contains `Running`. -/
lemma countRunning_pos_iff (l : List String) :
    0 < countRunning l ↔
      l.any (fun st => jsIncludes st FunctionalState.Running.name) = true := by
  induction l with
  | nil => simp [countRunning]
  | cons st l ih =>
      unfold countRunning at *
      simp only [List.foldl_cons, List.any_cons]
      rw [countRunning_foldl]
      by_cases hs : jsIncludes st FunctionalState.Running.name
      · rw [if_pos hs]
        simp [hs]
      · rw [if_neg hs]
        simp only [Nat.zero_add]
        rw [ih]
        simp [hs]

/-- C4 counterexample: the device state changing to `Sleep` (not `Operate`)
drives the machinery item state to `NotExecuting` (via
`adjustMachineryItemState`), not to `NotAvailable`: the code never sets
`NotAvailable`. -/
theorem device_state_notavailable_counterexample :
    (onDeviceStateChanged (some DeviceState.Sleep.name)
        { machineryItemState := some (some MachineryItemState.Executing.name)
          functionalUnitStateMachines :=
            [some FunctionalState.Stopped.name] }).machineryItemState =
      some (some MachineryItemState.NotExecuting.name) ∧
    some (some MachineryItemState.NotExecuting.name) ≠
      some (some MachineryItemState.NotAvailable.name) := by decide

/-- C4 (amended): while the device state changes to `Operate` the reaction
forces no machinery-item-state change; a change to any other device state
recomputes the machinery item state from the functional units — `Executing`
when at least one is `Running`, else `NotExecuting` (never `NotAvailable`). -/
theorem device_state_reaction (d : DeviceState) (h : DeviceHelper)
    (m : Option String) (hm : h.machineryItemState = some m) :
    (d = .Operate → onDeviceStateChanged (some d.name) h = h) ∧
    (d ≠ .Operate →
      (onDeviceStateChanged (some d.name) h).machineryItemState =
        some (some
          (if 0 < countRunning (h.functionalUnitStateMachines.map state2str)
           then MachineryItemState.Executing.name
           else MachineryItemState.NotExecuting.name))) := by
  constructor
  · rintro rfl
    have h1 : jsTruthy (some DeviceState.Operate.name) = true := by decide
    have h2 : jsIncludes DeviceState.Operate.name DeviceState.Operate.name = true := by
      decide
    simp [onDeviceStateChanged, h1, h2]
  · intro hd
    have h1 : jsTruthy (some d.name) = true := by cases d <;> decide
    have h2 : jsIncludes d.name DeviceState.Operate.name = false := by
      cases d
      · decide
      · exact absurd rfl hd
      · decide
      · decide
    simp [onDeviceStateChanged, h1, h2, adjustMachineryItemState,
      setMachineryItemState, hm]

/-- Witness for `device_state_reaction` at `Operate` and `Sleep`. -/
theorem device_state_reaction_witness :
    onDeviceStateChanged (some "Operate")
      { machineryItemState := some (some "NotExecuting") } =
        { machineryItemState := some (some "NotExecuting") } ∧
    (onDeviceStateChanged (some "Sleep")
      { machineryItemState := some (some "Executing") }).machineryItemState =
        some (some "NotExecuting") := by
  refine ⟨?_, ?_⟩
  · exact (device_state_reaction .Operate _ _ rfl).1 rfl
  · have := (device_state_reaction .Sleep
      { machineryItemState := some (some "Executing") } _ rfl).2 (by decide)
    simpa using this

/-- C5: a health change to `FAILURE` sets the machinery item state to
`OutOfService`; every functional unit whose state contains `Running` is set
to `Aborting` and, once the scheduled grace timers fire, to `Aborted`;
units not in `Running` keep their state in both snapshots (the attempt is a
no-op, not an error). -/
theorem health_failure_cascade (h : DeviceHelper) (m : Option String)
    (hm : h.machineryItemState = some m) :
    (onDeviceHealthChanged .FAILURE h).1.machineryItemState =
      some (some MachineryItemState.OutOfService.name) ∧
    (onDeviceHealthChanged .FAILURE h).1.functionalUnitStateMachines =
      h.functionalUnitStateMachines.map (fun st =>
        if jsIncludes (state2str st) FunctionalState.Running.name
        then some FunctionalState.Aborting.name else st) ∧
    (onDeviceHealthChanged .FAILURE h).2.functionalUnitStateMachines =
      h.functionalUnitStateMachines.map (fun st =>
        if jsIncludes (state2str st) FunctionalState.Running.name
        then some FunctionalState.Aborted.name else st) ∧
    (∀ st : Option String,
      jsIncludes (state2str st) FunctionalState.Running.name = false →
        (if jsIncludes (state2str st) FunctionalState.Running.name
         then some FunctionalState.Aborting.name else st) = st ∧
        (if jsIncludes (state2str st) FunctionalState.Running.name
         then some FunctionalState.Aborted.name else st) = st) := by
  refine ⟨?_, ?_, ?_, ?_⟩
  · simp [onDeviceHealthChanged, setMachineryItemState, hm]
  · simp [onDeviceHealthChanged, setMachineryItemState, hm]
  · simp [onDeviceHealthChanged, setMachineryItemState, hm]
  · intro st hst
    simp [hst]

/-- Witness for `health_failure_cascade`: one running and one stopped unit. -/
theorem health_failure_cascade_witness :
    (onDeviceHealthChanged .FAILURE
      { machineryItemState := some (some "NotExecuting")
        functionalUnitStateMachines :=
          [some "Running", some "Stopped"] }).1.machineryItemState =
      some (some "OutOfService") := by
  exact (health_failure_cascade
    { machineryItemState := some (some "NotExecuting")
      functionalUnitStateMachines := [some "Running", some "Stopped"] }
    _ rfl).1

/-- C6: once the debounced recomputation has run (and no further changes
intervene), the machinery item state is `Executing` iff at least one
functional unit's state contains `Running`, and `NotExecuting` otherwise;
and every functional-unit state change to a truthy state text schedules
that recomputation. -/
theorem machinery_item_executing_iff (h : DeviceHelper) (m : Option String)
    (hm : h.machineryItemState = some m) :
    ((adjustMachineryItemState h).1.machineryItemState =
        some (some MachineryItemState.Executing.name) ↔
      h.functionalUnitStateMachines.any (fun st =>
        jsIncludes (state2str st) FunctionalState.Running.name) = true) ∧
    (h.functionalUnitStateMachines.any (fun st =>
        jsIncludes (state2str st) FunctionalState.Running.name) = false →
      (adjustMachineryItemState h).1.machineryItemState =
        some (some MachineryItemState.NotExecuting.name)) ∧
    (∀ st : Option String, jsTruthy st = true →
      (onFunctionalUnitStateChanged st h).2 = true) := by
  have hany : 0 < countRunning (h.functionalUnitStateMachines.map state2str) ↔
      h.functionalUnitStateMachines.any (fun st =>
        jsIncludes (state2str st) FunctionalState.Running.name) = true := by
    rw [countRunning_pos_iff]
    induction h.functionalUnitStateMachines with
    | nil => rfl
    | cons st l ih => simp [List.any_cons, ih]
  refine ⟨?_, ?_, ?_⟩
  · by_cases hr : 0 < countRunning (h.functionalUnitStateMachines.map state2str)
    · rw [← hany]
      simp [adjustMachineryItemState, setMachineryItemState, hm, hr]
    · rw [← hany]
      simp only [adjustMachineryItemState, setMachineryItemState, hm]
      simp [hr]
      decide
  · intro hno
    have hr : ¬ 0 < countRunning (h.functionalUnitStateMachines.map state2str) := by
      rw [hany, hno]; simp
    simp [adjustMachineryItemState, setMachineryItemState, hm, hr]
  · intro st hst
    simp [onFunctionalUnitStateChanged, hst]

/-- Witness for `machinery_item_executing_iff` with one running unit. -/
theorem machinery_item_executing_iff_witness :
    ((adjustMachineryItemState
        { machineryItemState := some (some "NotExecuting")
          functionalUnitStateMachines :=
            [some "Running"] }).1.machineryItemState =
      some (some "Executing")) := by
  exact (machinery_item_executing_iff
    { machineryItemState := some (some "NotExecuting")
      functionalUnitStateMachines := [some "Running"] } _ rfl).1.mpr (by decide)

/-! ## The event-notifier tree (`buildLADSEventNotifierTree`, `lads-utils.ts:322`)

The address space is abstracted as a multigraph of node ids: `addReference`
appends a `HasNotifier` edge, `setEventNotifier` marks a node as an event
notifier (an attribute assignment, hence recorded at most once), and
`findReferencesAsObject(hasNotifierType)` returns the targets of a node's
outgoing `HasNotifier` edges.  Device structure (node ids of the device, its
functional-unit set, each functional unit and its function set with the
direct function nodes) is static.  The recursive call
`getLADSFunctions(ladsFunction, true)` inside `getLADSFunctions` passes
`addHasNotifierReferences = false` — that branch adds no references, sets no
flags, and its return value is discarded (`Array.concat` does not mutate) —
so nested function sets contribute nothing to the graph and are not part of
the static structure here. -/

/-- The `HasNotifier` graph over node ids: the edge list (in insertion
order; the underlying store is kept abstract, so repeated insertions are
recorded) and the set of nodes marked as event notifiers. -/
structure NotifierGraph where
  edges : List (Nat × Nat) := []
  notifiers : List Nat := []
  deriving DecidableEq, Repr

/-- Targets of the edges leaving `n`. -/
def tgts (es : List (Nat × Nat)) (n : Nat) : List Nat :=
  (es.filter (fun e => e.1 == n)).map (fun e => e.2)

/-- `node.addReference({referenceType: hasNotifierType, nodeId: tgt})`. -/
def addReference (src tgt : Nat) (g : NotifierGraph) : NotifierGraph :=
  { g with edges := g.edges ++ [(src, tgt)] }

/-- `node.setEventNotifier(1)`: an attribute assignment, idempotent. -/
def setEventNotifier (n : Nat) (g : NotifierGraph) : NotifierGraph :=
  if g.notifiers.contains n then g else { g with notifiers := g.notifiers ++ [n] }

/-- `node.findReferencesAsObject(hasNotifierType)`. -/
def hasNotifierTargets (g : NotifierGraph) (src : Nat) : List Nat :=
  tgts g.edges src

/-- A functional unit: its node id and, if it has a `FunctionSet`, the
function set's node id with the ids of the direct function nodes. -/
structure FunctionalUnitN where
  id : Nat
  functionSet : Option (Nat × List Nat) := none
  deriving DecidableEq, Repr

/-- A device: its node id, the `FunctionalUnitSet` node id, and its
functional units. -/
structure DeviceN where
  id : Nat
  functionalUnitSetId : Nat
  functionalUnits : List FunctionalUnitN := []
  deriving DecidableEq, Repr

/-- The graph effect of `getLADSFunctions(parent, true, true)`
(`lads-utils.ts:141`): add `parent → functionSet`, mark both, then for each
direct function not found among the *parent's* notifier targets (note: the
edges to functions start at the function set, so this lookup is against the
wrong node's reference list) mark it and add `functionSet → function`. -/
def getLADSFunctionsGraph (parentId : Nat) (fset : Option (Nat × List Nat))
    (g : NotifierGraph) : NotifierGraph :=
  match fset with
  | none => g
  | some (fsId, funcs) =>
    let g1 := setEventNotifier fsId (setEventNotifier parentId
      (addReference parentId fsId g))
    let notifierReferences := hasNotifierTargets g1 parentId
    funcs.foldl
      (fun acc f =>
        if notifierReferences.contains f then acc
        else addReference fsId f (setEventNotifier f acc))
      g1

/-- `buildLADSEventNotifierTree(device)` (`lads-utils.ts:322`): read the
device's notifier targets, add `device → functionalUnitSet` (unguarded),
mark device and set, then for each functional unit not among the *device's*
pre-recorded targets (again the wrong reference list — unit edges start at
the functional-unit set) add `functionalUnitSet → unit` and recurse into its
functions. -/
def buildLADSEventNotifierTree (d : DeviceN) (g : NotifierGraph) : NotifierGraph :=
  let notifierReferences := hasNotifierTargets g d.id
  let g1 := setEventNotifier d.functionalUnitSetId (setEventNotifier d.id
    (addReference d.id d.functionalUnitSetId g))
  d.functionalUnits.foldl
    (fun acc fu =>
      let acc1 :=
        if notifierReferences.contains fu.id then acc
        else addReference d.functionalUnitSetId fu.id (setEventNotifier fu.id acc)
      getLADSFunctionsGraph fu.id fu.functionSet acc1)
    g1

/-- A device shaped like the sample server's (one functional unit, a
function set with direct functions), with small ids. -/
def sampleDevice : DeviceN :=
  { id := 1, functionalUnitSetId := 2
    functionalUnits := [{ id := 3, functionSet := some (4, [5, 6]) }] }

/-- The edges one `buildLADSEventNotifierTree` call adds for one unit. -/
def unitDelta (fusetId : Nat) (fu : FunctionalUnitN) : List (Nat × Nat) :=
  (fusetId, fu.id) ::
    (match fu.functionSet with
     | none => []
     | some (fsId, fs) => (fu.id, fsId) :: fs.map (fun f => (fsId, f)))

/-- The edges one `buildLADSEventNotifierTree` call adds for the device. -/
def buildDelta (d : DeviceN) : List (Nat × Nat) :=
  (d.id, d.functionalUnitSetId) ::
    d.functionalUnits.flatMap (unitDelta d.functionalUnitSetId)

/-- Marking a notifier does not change the edges. -/
lemma edges_setEventNotifier (n : Nat) (g : NotifierGraph) :
    (setEventNotifier n g).edges = g.edges := by
  unfold setEventNotifier; split <;> rfl

/-- `tgts` distributes over append. -/
lemma tgts_append (a b : List (Nat × Nat)) (n : Nat) :
    tgts (a ++ b) n = tgts a n ++ tgts b n := by
  simp [tgts, List.filter_append]

/-- `tgts` of the empty edge list. -/
lemma tgts_nil (n : Nat) : tgts [] n = [] := rfl

/-- `tgts` past a matching head edge. -/
lemma tgts_cons_eq (t n : Nat) (b : List (Nat × Nat)) :
    tgts ((n, t) :: b) n = t :: tgts b n := by
  simp [tgts]

/-- `tgts` past a non-matching head edge. -/
lemma tgts_cons_ne (e : Nat × Nat) (n : Nat) (b : List (Nat × Nat))
    (h : e.1 ≠ n) : tgts (e :: b) n = tgts b n := by
  simp [tgts, List.filter_cons, h]

/-- `tgts` of an edge list with no matching source. -/
lemma tgts_eq_nil (es : List (Nat × Nat)) (n : Nat)
    (h : ∀ e ∈ es, e.1 ≠ n) : tgts es n = [] := by
  induction es with
  | nil => rfl
  | cons e b ih =>
      rw [tgts_cons_ne e n b (h e (List.mem_cons_self e b))]
      exact ih (fun x hx => h x (List.mem_cons_of_mem e hx))

/-- Membership in `tgts` is membership of the edge. -/
lemma mem_tgts (es : List (Nat × Nat)) (n t : Nat) :
    t ∈ tgts es n ↔ (n, t) ∈ es := by
  induction es with
  | nil => simp [tgts_nil]
  | cons e b ih =>
      by_cases h : e.1 = n
      · obtain ⟨e1, e2⟩ := e
        subst h
        rw [tgts_cons_eq]
        simp only [List.mem_cons, ih]
        constructor
        · rintro (rfl | hb)
          · exact Or.inl rfl
          · exact Or.inr hb
        · rintro (he | hb)
          · injection he with h1 h2
            exact Or.inl h2
          · exact Or.inr hb
      · rw [tgts_cons_ne e n b h]
        simp only [ih, List.mem_cons]
        constructor
        · exact Or.inr
        · rintro (rfl | hb)
          · exact absurd rfl h
          · exact hb

/-- The inner function fold of `getLADSFunctionsGraph` appends one edge per
function when no function is among the notifier references. -/
lemma funcFold_edges (fsId : Nat) (nr : List Nat) (fs : List Nat) (acc : NotifierGraph)
    (hf : ∀ f ∈ fs, nr.contains f = false) :
    (fs.foldl
      (fun acc f =>
        if nr.contains f then acc
        else addReference fsId f (setEventNotifier f acc))
      acc).edges
      = acc.edges ++ fs.map (fun f => (fsId, f)) := by
  induction fs generalizing acc with
  | nil => simp
  | cons f rest ih =>
      simp only [List.foldl_cons, List.map_cons]
      have hc : nr.contains f = false := hf f (by simp)
      rw [if_neg (by rw [hc]; simp)]
      rw [ih _ (fun x hx => hf x (by simp [hx]))]
      simp [addReference, edges_setEventNotifier]

/-- Edge effect of `getLADSFunctionsGraph` on a function set whose functions
are fresh for the parent's targets. -/
lemma getLADSFunctionsGraph_edges (parentId fsId : Nat) (fs : List Nat)
    (g : NotifierGraph)
    (hf : ∀ f ∈ fs, f ∉ tgts g.edges parentId ∧ f ≠ fsId) :
    (getLADSFunctionsGraph parentId (some (fsId, fs)) g).edges
      = g.edges ++ ((parentId, fsId) :: fs.map (fun f => (fsId, f))) := by
  have hg1 : (setEventNotifier fsId (setEventNotifier parentId
      (addReference parentId fsId g))).edges = g.edges ++ [(parentId, fsId)] := by
    simp [edges_setEventNotifier, addReference]
  have hnr : hasNotifierTargets (setEventNotifier fsId (setEventNotifier parentId
      (addReference parentId fsId g))) parentId = tgts g.edges parentId ++ [fsId] := by
    rw [hasNotifierTargets, hg1, tgts_append, tgts_cons_eq]
    rfl
  have hcontains : ∀ f ∈ fs,
      (tgts g.edges parentId ++ [fsId]).contains f = false := by
    intro f hfmem
    obtain ⟨h1, h2⟩ := hf f hfmem
    simp [h1, h2]
  simp only [getLADSFunctionsGraph, hnr]
  rw [funcFold_edges fsId _ fs _ hcontains, hg1]
  simp

/-- Distinctness of two functional units: different ids, and neither id
equals the other's function-set id. -/
def unitsDistinct (a b : FunctionalUnitN) : Prop :=
  a.id ≠ b.id ∧
  (∀ fsId fs, a.functionSet = some (fsId, fs) → b.id ≠ fsId) ∧
  (∀ fsId fs, b.functionSet = some (fsId, fs) → a.id ≠ fsId)

/-- `unitsDistinct` is symmetric. -/
lemma unitsDistinct_symm : Symmetric unitsDistinct := by
  rintro a b ⟨h1, h2, h3⟩
  exact ⟨h1.symm, h3, h2⟩

/-- `unitDelta` has no edge leaving a node distinct from the unit-set id,
the unit id and the unit's function-set id. -/
lemma tgts_unitDelta_nil (fusetId : Nat) (fu : FunctionalUnitN) (n : Nat)
    (h1 : n ≠ fusetId) (h2 : n ≠ fu.id)
    (h3 : ∀ fsId fs, fu.functionSet = some (fsId, fs) → n ≠ fsId) :
    tgts (unitDelta fusetId fu) n = [] := by
  apply tgts_eq_nil
  intro e he
  unfold unitDelta at he
  cases hfs : fu.functionSet with
  | none =>
      rw [hfs] at he
      simp only [List.mem_singleton] at he
      subst he
      exact fun hc => h1 hc.symm
  | some p =>
      obtain ⟨fsId, fs⟩ := p
      rw [hfs] at he
      simp only [List.mem_cons, List.mem_map] at he
      rcases he with rfl | rfl | ⟨f, hfmem, rfl⟩
      · exact fun hc => h1 hc.symm
      · exact fun hc => h2 hc.symm
      · exact fun hc => (h3 fsId fs hfs) hc.symm

/-- The unit fold of `buildLADSEventNotifierTree` appends exactly the unit
deltas when the guards pass and the units are pairwise distinct. -/
lemma unitsFold_edges (fusetId : Nat) (nr0 : List Nat)
    (units : List FunctionalUnitN) (acc : NotifierGraph)
    (H1 : ∀ fu ∈ units, nr0.contains fu.id = false)
    (H2 : ∀ fu ∈ units, ∀ fsId fs, fu.functionSet = some (fsId, fs) →
        ∀ f ∈ fs, f ∉ tgts acc.edges fu.id ∧ f ≠ fsId)
    (H3 : ∀ fu ∈ units, fu.id ≠ fusetId)
    (H4 : List.Pairwise unitsDistinct units) :
    (units.foldl
      (fun acc fu =>
        getLADSFunctionsGraph fu.id fu.functionSet
          (if nr0.contains fu.id then acc
           else addReference fusetId fu.id (setEventNotifier fu.id acc)))
      acc).edges
      = acc.edges ++ units.flatMap (unitDelta fusetId) := by
  induction units generalizing acc with
  | nil => simp
  | cons fu rest ih =>
      simp only [List.foldl_cons, List.flatMap_cons]
      have hguard : nr0.contains fu.id = false := H1 fu (by simp)
      rw [if_neg (by rw [hguard]; simp)]
      have hacc1 : (addReference fusetId fu.id (setEventNotifier fu.id acc)).edges
          = acc.edges ++ [(fusetId, fu.id)] := by
        simp [addReference, edges_setEventNotifier]
      have hfune : fu.id ≠ fusetId := H3 fu (by simp)
      have hpair : ∀ fu2 ∈ rest, unitsDistinct fu fu2 :=
        fun fu2 h2 => (List.pairwise_cons.mp H4).1 fu2 h2
      have hstep : (getLADSFunctionsGraph fu.id fu.functionSet
          (addReference fusetId fu.id (setEventNotifier fu.id acc))).edges
          = acc.edges ++ unitDelta fusetId fu := by
        cases hfs : fu.functionSet with
        | none =>
            simp [hfs, getLADSFunctionsGraph, unitDelta, hacc1]
        | some p =>
            obtain ⟨fsId, fs⟩ := p
            have hf : ∀ f ∈ fs,
                f ∉ tgts (addReference fusetId fu.id
                  (setEventNotifier fu.id acc)).edges fu.id ∧ f ≠ fsId := by
              intro f hfmem
              obtain ⟨hf1, hf2⟩ := H2 fu (by simp) fsId fs hfs f hfmem
              refine ⟨?_, hf2⟩
              rw [hacc1, tgts_append]
              rw [tgts_cons_ne _ _ _ (fun hc => hfune hc.symm), tgts_nil]
              simpa using hf1
            rw [getLADSFunctionsGraph_edges fu.id fsId fs _ hf, hacc1]
            simp [unitDelta, hfs]
      rw [ih _ ?H1r ?H2r ?H3r ?H4r, hstep]
      · simp
      case H1r => exact fun fu2 h => H1 fu2 (by simp [h])
      case H3r => exact fun fu2 h => H3 fu2 (by simp [h])
      case H4r => exact (List.pairwise_cons.mp H4).2
      case H2r =>
        intro fu2 h2 fsId2 fs2 hfs2 f hfmem
        obtain ⟨hf1, hf2⟩ := H2 fu2 (by simp [h2]) fsId2 fs2 hfs2 f hfmem
        refine ⟨?_, hf2⟩
        rw [hstep, tgts_append]
        obtain ⟨hd1, hd2, hd3⟩ := hpair fu2 h2
        rw [tgts_unitDelta_nil fusetId fu fu2.id
          (H3 fu2 (by simp [h2])) (fun hc => hd1 hc.symm) hd2]
        simpa using hf1

/-- One `buildLADSEventNotifierTree` call appends exactly `buildDelta d`
when every guard finds nothing to skip. -/
lemma build_edges (d : DeviceN) (g : NotifierGraph)
    (H1 : ∀ fu ∈ d.functionalUnits, fu.id ∉ tgts g.edges d.id)
    (H2 : ∀ fu ∈ d.functionalUnits, ∀ fsId fs, fu.functionSet = some (fsId, fs) →
        ∀ f ∈ fs, f ∉ tgts g.edges fu.id ∧ f ≠ fsId)
    (H3 : ∀ fu ∈ d.functionalUnits, fu.id ≠ d.functionalUnitSetId ∧ fu.id ≠ d.id)
    (H4 : List.Pairwise unitsDistinct d.functionalUnits) :
    (buildLADSEventNotifierTree d g).edges = g.edges ++ buildDelta d := by
  have hg1 : (setEventNotifier d.functionalUnitSetId (setEventNotifier d.id
      (addReference d.id d.functionalUnitSetId g))).edges
      = g.edges ++ [(d.id, d.functionalUnitSetId)] := by
    simp [edges_setEventNotifier, addReference]
  have hcontains : ∀ fu ∈ d.functionalUnits,
      (hasNotifierTargets g d.id).contains fu.id = false := by
    intro fu hm
    have := H1 fu hm
    rw [hasNotifierTargets]
    simpa using this
  have hH2g1 : ∀ fu ∈ d.functionalUnits, ∀ fsId fs,
      fu.functionSet = some (fsId, fs) → ∀ f ∈ fs,
      f ∉ tgts (setEventNotifier d.functionalUnitSetId (setEventNotifier d.id
        (addReference d.id d.functionalUnitSetId g))).edges fu.id ∧ f ≠ fsId := by
    intro fu hm fsId fs hfs f hfmem
    obtain ⟨hf1, hf2⟩ := H2 fu hm fsId fs hfs f hfmem
    refine ⟨?_, hf2⟩
    rw [hg1, tgts_append]
    rw [tgts_cons_ne _ _ _ (fun hc => (H3 fu hm).2 hc.symm), tgts_nil]
    simpa using hf1
  simp only [buildLADSEventNotifierTree]
  rw [unitsFold_edges d.functionalUnitSetId (hasNotifierTargets g d.id)
    d.functionalUnits _ hcontains hH2g1 (fun fu h => (H3 fu h).1) H4, hg1]
  simp [buildDelta]

/-- Well-formed device: node ids of the device, the functional-unit set,
the units and their function sets are suitably distinct (they are distinct
nodes of the address space). -/
def wfDevice (d : DeviceN) : Prop :=
  d.id ≠ d.functionalUnitSetId ∧
  (∀ fu ∈ d.functionalUnits, fu.id ≠ d.functionalUnitSetId ∧ fu.id ≠ d.id) ∧
  (∀ fu ∈ d.functionalUnits, ∀ fsId fs, fu.functionSet = some (fsId, fs) →
      fsId ≠ d.id ∧ fsId ≠ fu.id ∧ ∀ f ∈ fs, f ≠ fsId) ∧
  List.Pairwise unitsDistinct d.functionalUnits

/-- Shape of the members of a unit delta. -/
lemma unitDelta_mem (fusetId : Nat) (fu2 : FunctionalUnitN) (e : Nat × Nat)
    (he : e ∈ unitDelta fusetId fu2) :
    e = (fusetId, fu2.id) ∨
    ∃ fsId fs, fu2.functionSet = some (fsId, fs) ∧
      (e = (fu2.id, fsId) ∨ ∃ f ∈ fs, e = (fsId, f)) := by
  unfold unitDelta at he
  cases hfs : fu2.functionSet with
  | none =>
      rw [hfs] at he
      simp only [List.mem_singleton] at he
      exact Or.inl he
  | some p =>
      obtain ⟨fsId, fs⟩ := p
      rw [hfs] at he
      simp only [List.mem_cons, List.mem_map] at he
      rcases he with rfl | rfl | ⟨f, hfmem, rfl⟩
      · exact Or.inl rfl
      · exact Or.inr ⟨fsId, fs, rfl, Or.inl rfl⟩
      · exact Or.inr ⟨fsId, fs, rfl, Or.inr ⟨f, hfmem, rfl⟩⟩

/-- After one build from the empty graph, the device's notifier targets are
exactly the functional-unit set. -/
lemma tgts_buildDelta_device (d : DeviceN) (hwf : wfDevice d) :
    tgts (buildDelta d) d.id = [d.functionalUnitSetId] := by
  obtain ⟨w1, w2, w3, w4⟩ := hwf
  unfold buildDelta
  rw [tgts_cons_eq]
  have hnil : tgts (d.functionalUnits.flatMap
      (unitDelta d.functionalUnitSetId)) d.id = [] := by
    apply tgts_eq_nil
    intro e he
    simp only [List.mem_flatMap] at he
    obtain ⟨fu, hfu, hmem⟩ := he
    rcases unitDelta_mem _ _ _ hmem with rfl | ⟨fsId, fs, hfs, rfl | ⟨f, hfm, rfl⟩⟩
    · exact fun hc => w1 hc.symm
    · exact fun hc => (w2 fu hfu).2 hc
    · exact fun hc => (w3 fu hfu fsId fs hfs).1 hc
  rw [hnil]

/-- After one build from the empty graph, a unit's notifier targets can only
be its own function-set id. -/
lemma tgts_buildDelta_unit (d : DeviceN) (hwf : wfDevice d)
    (fu : FunctionalUnitN) (hfu : fu ∈ d.functionalUnits)
    (f : Nat) (hf : f ∈ tgts (buildDelta d) fu.id) :
    ∃ fsId fs, fu.functionSet = some (fsId, fs) ∧ f = fsId := by
  obtain ⟨w1, w2, w3, w4⟩ := hwf
  rw [mem_tgts] at hf
  unfold buildDelta at hf
  simp only [List.mem_cons, List.mem_flatMap] at hf
  rcases hf with he | ⟨fu2, hfu2, hmem⟩
  · exact absurd (congrArg Prod.fst he) (by simpa using (w2 fu hfu).2)
  · rcases unitDelta_mem _ _ _ hmem with he | ⟨fsId2, fs2, hfs2, he | ⟨g, hgm, he⟩⟩
    · exact absurd (congrArg Prod.fst he) (by simpa using (w2 fu hfu).1)
    · have h1 : fu.id = fu2.id := congrArg Prod.fst he
      have h2 : f = fsId2 := congrArg Prod.snd he
      by_cases heq : fu = fu2
      · subst heq
        exact ⟨fsId2, fs2, hfs2, h2⟩
      · exact absurd h1 (List.Pairwise.forall unitsDistinct_symm w4 hfu hfu2 heq).1
    · have h1 : fu.id = fsId2 := congrArg Prod.fst he
      by_cases heq : fu = fu2
      · subst heq
        exact absurd h1.symm (w3 fu hfu fsId2 fs2 hfs2).2.1
      · exact absurd h1
          ((List.Pairwise.forall unitsDistinct_symm w4 hfu hfu2 heq).2.2 fsId2 fs2 hfs2)

/-- C7 counterexample: on a device with one functional unit and two
functions, the second `buildLADSEventNotifierTree` call re-adds every edge —
its skip guards compare against the wrong node's reference list and never
fire — so the recorded edge insertions after two calls are not those after
one call, contradicting "every edge addition skips edges that are already
present, so the second call adds nothing". -/
theorem buildTree_twice_counterexample :
    (buildLADSEventNotifierTree sampleDevice ⟨[], []⟩).edges =
      [(1, 2), (2, 3), (3, 4), (4, 5), (4, 6)] ∧
    (buildLADSEventNotifierTree sampleDevice
        (buildLADSEventNotifierTree sampleDevice ⟨[], []⟩)).edges =
      [(1, 2), (2, 3), (3, 4), (4, 5), (4, 6),
       (1, 2), (2, 3), (3, 4), (4, 5), (4, 6)] ∧
    (buildLADSEventNotifierTree sampleDevice
        (buildLADSEventNotifierTree sampleDevice ⟨[], []⟩)).edges ≠
      (buildLADSEventNotifierTree sampleDevice ⟨[], []⟩).edges := by decide

/-- C7 (amended): for any well-formed device, the second build call appends
a second copy of exactly the edges the first call added (nothing is
skipped), so as a *set* the `HasNotifier` edges after two calls are the same
as after one call — every edge of the double build is an edge of the single
build and vice versa. -/
theorem buildTree_twice_same_edge_set (d : DeviceN) (hwf : wfDevice d) :
    (buildLADSEventNotifierTree d (buildLADSEventNotifierTree d ⟨[], []⟩)).edges =
      (buildLADSEventNotifierTree d ⟨[], []⟩).edges ++ buildDelta d ∧
    ∀ e, (e ∈ (buildLADSEventNotifierTree d
            (buildLADSEventNotifierTree d ⟨[], []⟩)).edges ↔
          e ∈ (buildLADSEventNotifierTree d ⟨[], []⟩).edges) := by
  obtain ⟨w1, w2, w3, w4⟩ := hwf
  have hb1 : (buildLADSEventNotifierTree d ⟨[], []⟩).edges = buildDelta d := by
    rw [build_edges d ⟨[], []⟩ ?h1 ?h2 w2 w4]
    · rfl
    case h1 => intro fu hm; simp [tgts_nil]
    case h2 =>
      intro fu hm fsId fs hfs f hfm
      exact ⟨by simp [tgts_nil], (w3 fu hm fsId fs hfs).2.2 f hfm⟩
  have hb2 : (buildLADSEventNotifierTree d
      (buildLADSEventNotifierTree d ⟨[], []⟩)).edges =
      buildDelta d ++ buildDelta d := by
    rw [build_edges d _ ?h1 ?h2 w2 w4, hb1]
    case h1 =>
      intro fu hm
      rw [hb1, tgts_buildDelta_device d ⟨w1, w2, w3, w4⟩]
      simpa using (w2 fu hm).1
    case h2 =>
      intro fu hm fsId fs hfs f hfm
      refine ⟨?_, (w3 fu hm fsId fs hfs).2.2 f hfm⟩
      rw [hb1]
      intro hin
      obtain ⟨fsId2, fs2, hfs2, rfl⟩ :=
        tgts_buildDelta_unit d ⟨w1, w2, w3, w4⟩ fu hm f hin
      rw [hfs] at hfs2
      injection hfs2 with hp
      injection hp with hpe _
      exact (w3 fu hm fsId fs hfs).2.2 f hfm hpe.symm
  refine ⟨by rw [hb2, hb1], ?_⟩
  intro e
  rw [hb2, hb1]
  simp [List.mem_append]

/-- Witness for `buildTree_twice_same_edge_set` on the sample device at the
edge `(1, 2)`. -/
theorem buildTree_twice_same_edge_set_witness :
    (1, 2) ∈ (buildLADSEventNotifierTree sampleDevice
        (buildLADSEventNotifierTree sampleDevice ⟨[], []⟩)).edges ↔
      (1, 2) ∈ (buildLADSEventNotifierTree sampleDevice ⟨[], []⟩).edges := by
  have hwf : wfDevice sampleDevice := by
    refine ⟨by decide, ?_, ?_, ?_⟩ <;> simp [sampleDevice, unitsDistinct]
  exact (buildTree_twice_same_edge_set sampleDevice hwf).2 (1, 2)
